import Mathlib

/-!
Verification development for the Pontoon synchronization engine
(`wagtail_localize_pontoon/sync.py` and the earlier management-command
variant).  The engine reconciles a version-controlled tree of PO files
with a datastore of Segments/Translations, keeping a SyncLog ledger.

The shallow embedding below translates `sync.py` (the authoritative,
later variant).  External collaborators that are not part of this
repository's source (the git adapter, the polib codec, the wagtail
catalog/models) are modelled as concrete data per the specification's
collaborator surface; each such definition carries a note.  Database
effects are explicit state passing over a `DB` record; Django's
`transaction.atomic` is modelled by "committed state" functions that
return the initial state when the body raises (rollback + re-raise).

Python-level exceptions are modelled with `Except PyErr`.  Two places
in the source raise exceptions that the surrounding handlers do not
actually catch, and the embedding reproduces them faithfully:
  * `_try_update_resource_translation` catches `ParentNotTranslatedError`
    but then evaluates `if created:` where the local `created` was never
    assigned, raising `UnboundLocalError`.
  * the pull entry loop's handler `except Segment.objects.DoesNotExist`
    performs an attribute lookup on the model *manager*, which has no
    `DoesNotExist` attribute, so evaluating the handler clause raises
    `AttributeError` and the warn-and-skip branch is unreachable.
-/

deriving instance DecidableEq for Except

namespace Pontoon

/-- Python-level exceptions that can escape the engine's code paths. -/
inductive PyErr where
  /-- `AttributeError`: evaluating `Segment.objects.DoesNotExist` in the
  `except` clause (the Manager has no such attribute). -/
  | attributeError
  /-- `MultipleObjectsReturned` from `Segment.objects.get`. -/
  | multipleObjectsReturned
  /-- `UnboundLocalError`: reading the never-assigned local `created`
  after the `ParentNotTranslatedError` handler ran. -/
  | unboundLocal
  /-- Modelled from the spec: `UnrecognizedFileError` raised by
  `PontoonResource.get_by_po_filename` (models.py is not under src/). -/
  | unrecognizedFile
  /-- `IOError` raised by `polib.pofile` on malformed content. -/
  | parseError
  /-- Python `RecursionError` (recursion depth exhausted). -/
  | recursionError
deriving DecidableEq, Repr

/-- One PO entry: a source-text / translated-text pair. -/
structure POEntry where
  msgid : String
  msgstr : String
deriving DecidableEq, Repr

/-- Parsed PO file: free-form metadata header plus ordered entries
(polib keeps the header out of the entry list). -/
structure POFile where
  metadata : List (String × String)
  entries : List POEntry
deriving DecidableEq, Repr

/-- Byte content of a PO file in the repository, represented by its
codec outcome: either it parses to a `POFile` or `polib.pofile` raises
`IOError` on it.  (The codec is an external collaborator; only its
outcome on given bytes is observable to the engine.) -/
inductive PoContent where
  | good (po : POFile)
  | malformed
deriving DecidableEq, Repr

/-- `PontoonSyncLog.action` values. -/
inductive SyncAction where
  | pull
  | push
deriving DecidableEq, Repr

/-- A `PontoonSyncLog` row.  `commit_id` is `""` when unset. -/
structure SyncLog where
  id : Nat
  action : SyncAction
  commit_id : String
  time : Nat
deriving DecidableEq, Repr

/-- A `PontoonSyncLogResource` row (language is null for push rows). -/
structure SyncLogResource where
  log_id : Nat
  resource_id : Nat
  language : Option Nat
deriving DecidableEq, Repr

/-- A Segment Store row: source text keyed by literal text. -/
structure Segment where
  id : Nat
  text : String
deriving DecidableEq, Repr

/-- A Translation row for a (segment, language) pair. -/
structure Translation where
  segment_id : Nat
  language : Nat
  text : String
  updated_at : Nat
deriving DecidableEq, Repr

/-- A `PontoonResourceSubmission` row.  `push_log` references the
SyncLog entry that pushed it (none until pushed). -/
structure Submission where
  id : Nat
  resource_id : Nat
  revision_id : Nat
  pushed_at : Option Nat
  push_log : Option Nat
deriving DecidableEq, Repr

/-- A `PontoonResource` row (owned by the external Resource Catalog;
the engine reads its path and current revision). -/
structure Resource where
  id : Nat
  path : String
  current_revision_id : Nat
deriving DecidableEq, Repr

/-- Outcome of `create_or_update_translated_page` for one
(resource, language) pair. -/
inductive MatResult where
  /-- raises `ParentNotTranslatedError`. -/
  | parentNotTranslated
  /-- returns `(revision, created)`; `pageId` is the materialized
  revision's page, used to find child resources. -/
  | materialized (pageId : Nat) (created : Bool)
deriving DecidableEq, Repr

/-- Modelled from the spec: the external Resource Catalog /
Language model surface (models.py, pofile.py and the wagtail-localize
models are not under src/).  All lookups are concrete association
lists so the engine stays executable. -/
structure Catalog where
  /-- `PontoonResource.get_by_po_filename`: filename to
  (resource id, language id). -/
  byFilename : List (String × Nat × Nat)
  /-- `PontoonResource` table. -/
  resources : List Resource
  /-- active languages minus the default
  (`Language.objects.filter(is_active=True).exclude(default)`). -/
  activeLanguages : List Nat
  /-- `find_translatable_submission` paired with the outcome of
  `create_or_update_translated_page`: a key is present exactly when a
  translatable submission is ready for that (resource id, language id). -/
  submissionReady : List ((Nat × Nat) × MatResult)
  /-- child resources of a page: resources whose page is a child of the
  given page id (`PontoonResource.objects.filter(page__in=...)`). -/
  childResources : List (Nat × List Nat)
  /-- Modelled from the spec: `generate_source_pofile` output
  per resource id (pofile.py is not under src/). -/
  sourcePo : List (Nat × POFile)
  /-- Modelled from the spec: `generate_language_pofile` output per
  (resource id, language id). -/
  langPo : List ((Nat × Nat) × POFile)
deriving DecidableEq, Repr

/-- The datastore state the engine reads and writes.  `clock` is the
value `timezone.now()` returns during this cycle; `nextLogId` is the
next primary key for `PontoonSyncLog`. -/
structure DB where
  segments : List Segment
  translations : List Translation
  syncLogs : List SyncLog
  syncLogResources : List SyncLogResource
  submissions : List Submission
  nextLogId : Nat
  clock : Nat
deriving DecidableEq, Repr

/-- The repository as seen by one pull: head commit id and the result
of `get_changed_files(last_commit_id, head)`. -/
structure ChangedFile where
  filename : String
  oldContent : PoContent
  newContent : PoContent
deriving DecidableEq, Repr

/-- Repository view consumed by `_pull`. -/
structure RepoView where
  head : String
  changedFiles : List ChangedFile
deriving DecidableEq, Repr

/-- `PontoonSyncLog.objects.create(...)`: prepend the new row (the
`syncLogs` list is kept in reverse chronological creation order, so its
head is the row `order_by('-time').first()` returns). -/
def createSyncLog (db : DB) (action : SyncAction) (commit : String) :
    SyncLog × DB :=
  let log : SyncLog := ⟨db.nextLogId, action, commit, db.clock⟩
  (log, { db with syncLogs := log :: db.syncLogs, nextLogId := db.nextLogId + 1 })

/-- `PontoonSyncLog.objects.order_by('-time').exclude(commit_id='').first()`
projected to its commit id: the watermark for the next pull. -/
def lastCommitId (db : DB) : Option String :=
  ((db.syncLogs.filter (fun l => l.commit_id ≠ "")).head?).map (·.commit_id)

/-- `Segment.objects.get(text=t)` outcome. -/
inductive GetSegment where
  | found (s : Segment)
  | doesNotExist
  | multiple
deriving DecidableEq, Repr

/-- `Segment.objects.get(text=t)`: exactly one row or an exception. -/
def segmentGet (db : DB) (t : String) : GetSegment :=
  match db.segments.filter (fun s => s.text = t) with
  | [s] => .found s
  | [] => .doesNotExist
  | _ => .multiple

/-- `segment.translations.get_or_create(language=lang, ...)` lookup part. -/
def findTranslation (db : DB) (segId lang : Nat) : Option Translation :=
  db.translations.find? (fun t => t.segment_id == segId && t.language == lang)

/-- Replace the (unique, by `get_or_create`) translation row for
(segId, lang) with new text stamped at the current clock —
`translation.save()` after assigning `text` and `updated_at`. -/
def updateTranslation (db : DB) (segId lang : Nat) (newText : String) : DB :=
  { db with translations := db.translations.map (fun r =>
      if r.segment_id == segId && r.language == lang then
        { r with text := newText, updated_at := db.clock }
      else r) }

/-- One iteration of the pull entry loop (sync.py lines 79-100).
When the segment lookup raises `Segment.DoesNotExist`, evaluating the
handler clause `except Segment.objects.DoesNotExist` raises
`AttributeError` (the Manager has no `DoesNotExist` attribute), so the
logged-warning skip never happens and the error propagates.
`MultipleObjectsReturned` from `get` is likewise uncaught. -/
def processEntry (db : DB) (lang : Nat) (e : POEntry) : Except PyErr DB :=
  match segmentGet db e.msgid with
  | .doesNotExist => .error .attributeError
  | .multiple => .error .multipleObjectsReturned
  | .found seg =>
    match findTranslation db seg.id lang with
    | none =>
      .ok { db with translations :=
        ⟨seg.id, lang, e.msgstr, db.clock⟩ :: db.translations }
    | some t =>
      if t.text = e.msgstr then .ok db
      else .ok (updateTranslation db seg.id lang e.msgstr)

/-- The pull entry loop over the changed entries of one file. -/
def processEntries (db : DB) (lang : Nat) : List POEntry → Except PyErr DB
  | [] => .ok db
  | e :: es =>
    match processEntry db lang e with
    | .error err => .error err
    | .ok db1 => processEntries db1 lang es

/-- `find_translatable_submission` + `create_or_update_translated_page`
outcome for one (resource, language) pair; `none` means no translatable
submission is ready. -/
def submissionOutcome (cat : Catalog) (rid lang : Nat) : Option MatResult :=
  (cat.submissionReady.find? (fun p => p.1 == (rid, lang))).map (·.2)

/-- Child resources of the freshly created page. -/
def childResourcesOf (cat : Catalog) (pageId : Nat) : List Nat :=
  match cat.childResources.find? (fun p => p.1 == pageId) with
  | some p => p.2
  | none => []

/-- The `for resource in child_page_resources:` loop of
`_try_update_resource_translation`, factored over the recursive call
`step` so the recursion below is structural in the fuel: run `step` on
each child resource id in turn, stopping at the first error. -/
def updateChildResources (step : Nat → DB → Except PyErr DB) :
    List Nat → DB → Except PyErr DB
  | [], db => .ok db
  | k :: ks, db =>
    match step k db with
    | .error err => .error err
    | .ok db1 => updateChildResources step ks db1

/-- `_try_update_resource_translation(resource, language)` (sync.py
lines 21-41).  `fuel` models Python's recursion depth limit (exceeding
it raises `RecursionError`).  When `create_or_update_translated_page`
raises `ParentNotTranslatedError`, the handler only logs; control then
reaches `if created:` where the local `created` was never assigned, so
the call raises `UnboundLocalError` instead of returning. -/
def tryUpdateResourceTranslation (cat : Catalog) :
    Nat → Nat → Nat → DB → Except PyErr DB
  | 0, _, _, _ => .error .recursionError
  | f + 1, rid, lang, db =>
    match submissionOutcome cat rid lang with
    | none => .ok db
    | some .parentNotTranslated => .error .unboundLocal
    | some (.materialized pageId created) =>
      if created then
        updateChildResources
          (fun k db1 => tryUpdateResourceTranslation cat f k lang db1)
          (childResourcesOf cat pageId) db
      else .ok db

/-- Modelled from the spec: `PontoonResource.get_by_po_filename`
(models.py is not under src/); fails with `UnrecognizedFileError` when
no mapping exists, propagated, not swallowed. -/
def getByPoFilename (cat : Catalog) (filename : String) :
    Option (Nat × Nat) :=
  (cat.byFilename.find? (fun p => p.1 == filename)).map (·.2)

/-- The changed-entry set `set(new_po) - set(old_po)`: the entries of
the new file that do not occur in the old file, by full
(msgid, msgstr) identity.  PO entries within one file have distinct
msgids and no claim depends on the set's iteration order, so a list
filter realizes it. -/
def changedEntries (oldPo newPo : POFile) : List POEntry :=
  newPo.entries.filter (fun e => !(oldPo.entries.contains e))

/-- `PontoonSyncLogResource.objects.create(log=log, resource=resource,
language=language)`. -/
def addLogResource (db : DB) (logId rid lang : Nat) : DB :=
  { db with syncLogResources := ⟨logId, rid, some lang⟩ :: db.syncLogResources }

/-- Ingestion of one changed file inside `_pull` (sync.py lines 64-103):
resolve the path, record a `PontoonSyncLogResource`, parse old and new
content, process the entry-set difference, then attempt propagation.
The inner `with transaction.atomic():` is a savepoint; since no error
raised inside it is caught, its partial state is never observable and
an error simply propagates to the caller. -/
def processFile (cat : Catalog) (fuel : Nat) (logId : Nat)
    (cf : ChangedFile) (db : DB) : Except PyErr DB :=
  match getByPoFilename cat cf.filename with
  | none => .error .unrecognizedFile
  | some (rid, lang) =>
    let db1 := addLogResource db logId rid lang
    match cf.oldContent, cf.newContent with
    | .good oldPo, .good newPo =>
      match processEntries db1 lang (changedEntries oldPo newPo) with
      | .error err => .error err
      | .ok db2 => tryUpdateResourceTranslation cat fuel rid lang db2
    | _, _ => .error .parseError

/-- The `for filename, old_content, new_content in ...` loop of `_pull`. -/
def processFiles (cat : Catalog) (fuel : Nat) (logId : Nat) :
    List ChangedFile → DB → Except PyErr DB
  | [], db => .ok db
  | cf :: cfs, db =>
    match processFile cat fuel logId cf db with
    | .error err => .error err
    | .ok db1 => processFiles cat fuel logId cfs db1

/-- `_pull(repo)` body (sync.py lines 45-103): read the watermark,
unconditionally create a SyncLog(PULL) stamped with the head, return
early when the watermark equals the head, otherwise ingest every
changed file. -/
def pullResult (cat : Catalog) (fuel : Nat) (rv : RepoView) (db : DB) :
    Except PyErr DB :=
  let last := lastCommitId db
  let p := createSyncLog db .pull rv.head
  if last = some rv.head then .ok p.2
  else processFiles cat fuel p.1.id rv.changedFiles p.2

/-- Committed datastore state after the `@transaction.atomic`-wrapped
`_pull` call: on an uncaught exception Django rolls the whole
transaction back (and re-raises), so the datastore keeps its initial
state. -/
def pullCommitted (cat : Catalog) (fuel : Nat) (rv : RepoView) (db : DB) :
    DB :=
  match pullResult cat fuel rv db with
  | .ok db1 => db1
  | .error _ => db

/-- The reader view of the repository working tree during a push: the
managed translation files currently in the tree, each given by its
codec outcome.  (`copy_unmanaged_files` copies the non-translation
assets verbatim; those files are outside the codec-visible tree and no
claim concerns them.)  Modelled from the spec: the git adapter
(`git.py`) is not under src/; per its surface, `read_file` on an
absent path raises `KeyError` — the exception class `update_po`
catches for the missing-file case. -/
structure RepoFS where
  files : List (String × PoContent)
deriving DecidableEq, Repr

/-- `reader.read_file(filename)`: some content, or none (`KeyError`). -/
def readFile (fs : RepoFS) (filename : String) : Option PoContent :=
  (fs.files.find? (fun p => p.1 == filename)).map (·.2)

/-- The writer view accumulated during a push: the managed files
written so far and the configuration manifest once written. -/
structure Writer where
  files : List (String × POFile)
  config : Option (List Nat × List (String × String))
deriving DecidableEq, Repr

/-- `writer.write_file(filename, content)`: overwrite or add. -/
def writeFile (w : Writer) (filename : String) (po : POFile) : Writer :=
  { w with files :=
      (filename, po) :: w.files.filter (fun p => p.1 != filename) }

/-- `update_po(filename, new_po_string)` inside `_push` (sync.py lines
112-125).  The generated string always parses (it was serialized by
this system), so it is passed as a `POFile`.  If the existing file is
read and parses, its metadata replaces the generated metadata; a
missing file raises `KeyError`, which the handler catches, falling
through to write the generated content unmodified.  A malformed
existing file makes `polib.pofile` raise `IOError`, which the
`except KeyError` handler does not catch, so it propagates. -/
def update_po (reader : RepoFS) (w : Writer) (filename : String)
    (newPo : POFile) : Except PyErr Writer :=
  match readFile reader filename with
  | none => .ok (writeFile w filename newPo)
  | some .malformed => .error .parseError
  | some (.good current) =>
    .ok (writeFile w filename { newPo with metadata := current.metadata })

/-- `PontoonResource` row lookup by id. -/
def findResource (cat : Catalog) (rid : Nat) : Option Resource :=
  cat.resources.find? (fun r => r.id == rid)

/-- `resource.path` of a submission's resource (`''` if the foreign key
is dangling, which the current-submission filter already excludes). -/
def resourcePath (cat : Catalog) (rid : Nat) : String :=
  match findResource cat rid with
  | some r => r.path
  | none => ""

/-- Modelled from the spec: `resource.get_po_filename()` path-naming
function of the Resource Catalog. -/
def sourcePoFilename (cat : Catalog) (rid : Nat) : String :=
  "templates/" ++ resourcePath cat rid ++ ".pot"

/-- Modelled from the spec: `resource.get_po_filename(language=l)`. -/
def langPoFilename (cat : Catalog) (rid lang : Nat) : String :=
  "locales/" ++ toString lang ++ "/" ++ resourcePath cat rid ++ ".po"

/-- Modelled from the spec:
`resource.get_locale_po_filename_template()`. -/
def localeTemplateFilename (cat : Catalog) (rid : Nat) : String :=
  "locales/<locale>/" ++ resourcePath cat rid ++ ".po"

/-- Modelled from the spec: `generate_source_pofile(resource)`. -/
def sourcePoOf (cat : Catalog) (rid : Nat) : POFile :=
  match cat.sourcePo.find? (fun p => p.1 == rid) with
  | some p => p.2
  | none => ⟨[], []⟩

/-- Modelled from the spec: `generate_language_pofile(resource, l)`. -/
def langPoOf (cat : Catalog) (rid lang : Nat) : POFile :=
  match cat.langPo.find? (fun p => p.1 == (rid, lang)) with
  | some p => p.2
  | none => ⟨[], []⟩

/-- The condition `revision_id=F('resource__current_revision_id')`:
the submission's revision is its resource's current revision (a
dangling resource foreign key fails the join). -/
def isCurrent (cat : Catalog) (s : Submission) : Bool :=
  match findResource cat s.resource_id with
  | some r => s.revision_id == r.current_revision_id
  | none => false

/-- `PontoonResourceSubmission.objects.filter(revision_id=
F('resource__current_revision_id'))`. -/
def currentSubmissions (cat : Catalog) (db : DB) : List Submission :=
  db.submissions.filter (isCurrent cat)

/-- Insertion step for `order_by('resource__path')`. -/
def insertByPath (cat : Catalog) (s : Submission) :
    List Submission → List Submission
  | [] => [s]
  | t :: ts =>
    if resourcePath cat s.resource_id ≤ resourcePath cat t.resource_id then
      s :: t :: ts
    else t :: insertByPath cat s ts

/-- `order_by('resource__path')`: a deterministic sort by the
submission's resource path. -/
def orderByPath (cat : Catalog) : List Submission → List Submission
  | [] => []
  | s :: ss => insertByPath cat s (orderByPath cat ss)

/-- Write the source PO and every active-language PO for one
submission's resource — one iteration of the `_push` submission loop
(sync.py lines 131-141). -/
def writeSubmissionFiles (reader : RepoFS) (cat : Catalog)
    (w : Writer) (s : Submission) : Except PyErr Writer := do
  let w ← update_po reader w (sourcePoFilename cat s.resource_id)
    (sourcePoOf cat s.resource_id)
  cat.activeLanguages.foldlM (fun w lang =>
    update_po reader w (langPoFilename cat s.resource_id lang)
      (langPoOf cat s.resource_id lang)) w

/-- The whole submission loop: thread the writer through every
submission in path order.  In the source the `pushed_submission_ids`
accumulator is interleaved with the writes, but an exception rolls the
transaction back, so the ids are only observable when every write
succeeded; they are then exactly the ids of the processed list. -/
def runUpdates (reader : RepoFS) (cat : Catalog)
    (subs : List Submission) (w : Writer) : Except PyErr Writer :=
  subs.foldlM (writeSubmissionFiles reader cat) w

/-- `pushed_submission_ids` as observable on success. -/
def pushedIds (cat : Catalog) (db : DB) : List Nat :=
  (orderByPath cat (currentSubmissions cat db)).map (·.id)

/-- The condition of the queryset
`filter(id__in=pushed_submission_ids, push_log__isnull=True)`. -/
def selCond (ids : List Nat) (s : Submission) : Bool :=
  ids.contains s.id && s.push_log.isNone

/-- `pushed_submissions`: the just-processed submissions never pushed
before (sync.py line 146). -/
def pushSelection (cat : Catalog) (db : DB) : List Submission :=
  db.submissions.filter (selCond (pushedIds cat db))

/-- `writer.write_config(language_tags, paths)`. -/
def writeConfig (w : Writer) (langs : List Nat)
    (paths : List (String × String)) : Writer :=
  { w with config := some (langs, paths) }

/-- The `paths` accumulator of the submission loop. -/
def configPaths (cat : Catalog) (subs : List Submission) :
    List (String × String) :=
  subs.map (fun s =>
    (sourcePoFilename cat s.resource_id, localeTemplateFilename cat s.resource_id))

/-- `pushed_submissions.update(pushed_at=timezone.now(), push_log=log)`:
the queryset condition is re-evaluated against the table rows (which
the loop left untouched), stamping the matching rows. -/
def markPushed (db : DB) (ids : List Nat) (logId : Nat) : DB :=
  { db with submissions := db.submissions.map (fun s =>
      if selCond ids s then
        { s with pushed_at := some db.clock, push_log := some logId }
      else s) }

/-- `log.commit_id = repo.get_head_commit_id(); log.save(...)`. -/
def setLogCommit (db : DB) (logId : Nat) (commit : String) : DB :=
  { db with syncLogs := db.syncLogs.map (fun l =>
      if l.id == logId then { l with commit_id := commit } else l) }

/-- Environment of one `_push` call: the reader view, the repository
adapter's answer to `writer.has_changes()` after the writes, and the
head commit id a commit would produce.  Modelled from the spec: both
answers come from the external git adapter. -/
structure PushEnv where
  reader : RepoFS
  hasChanges : Bool
  newHead : String
deriving DecidableEq, Repr

/-- Observable outcome of one `_push` call: the datastore, the writer
(file-tree) state, whether `writer.commit` ran, whether `repo.push()`
was invoked, and the id of the SyncLog(PUSH) row if one was created. -/
structure PushOut where
  db : DB
  writer : Writer
  committed : Bool
  pushedToRemote : Bool
  logId : Option Nat
deriving DecidableEq, Repr

/-- `_push(repo)` (sync.py lines 106-175): copy unmanaged files, write
source and per-language POs for every current submission in path
order, write the config manifest, then finalize: if some just-written
submission was never pushed before, create a SyncLog(PUSH) with empty
commit id, add a SyncLogResource per pushed submission, stamp the
submissions, commit if the writer has changes (recording the new head
on the log), and invoke `repo.push()`; otherwise the cycle is a no-op
with no log entry and no `repo.push()`. -/
def pushResult (cat : Catalog) (env : PushEnv) (db : DB) :
    Except PyErr PushOut :=
  let subs := orderByPath cat (currentSubmissions cat db)
  match runUpdates env.reader cat subs ⟨[], none⟩ with
  | .error err => .error err
  | .ok w0 =>
    let w := writeConfig w0 cat.activeLanguages (configPaths cat subs)
    let sel := pushSelection cat db
    if sel.isEmpty then
      .ok ⟨db, w, false, false, none⟩
    else
      let p := createSyncLog db .push ""
      let db1 := { p.2 with syncLogResources :=
        (sel.map (fun s => ⟨p.1.id, s.resource_id, none⟩))
          ++ p.2.syncLogResources }
      let db2 := markPushed db1 (pushedIds cat db) p.1.id
      if env.hasChanges then
        .ok ⟨setLogCommit db2 p.1.id env.newHead, w, true, true, some p.1.id⟩
      else
        .ok ⟨db2, w, false, true, some p.1.id⟩

/-- Committed datastore state after the `@transaction.atomic`-wrapped
`_push` call (rollback on an uncaught exception). -/
def pushCommitted (cat : Catalog) (env : PushEnv) (db : DB) : DB :=
  match pushResult cat env db with
  | .ok out => out.db
  | .error _ => db

/-- Committed datastore state after `SyncManager.sync()`: repository
pull, then `_pull`, then `_push`, each its own transaction; an
exception in `_pull` aborts the run before `_push`. -/
def syncCommitted (cat : Catalog) (fuel : Nat) (rv : RepoView)
    (env : PushEnv) (db : DB) : DB :=
  match pullResult cat fuel rv db with
  | .error _ => db
  | .ok db1 =>
    match pushResult cat env db1 with
    | .error _ => db1
    | .ok out => out.db

namespace SyncManager

/-- `SyncManager.sync()` as a datastore transformer (sync.py lines
182-190). -/
def sync (cat : Catalog) (fuel : Nat) (rv : RepoView) (env : PushEnv)
    (db : DB) : DB :=
  syncCommitted cat fuel rv env db

/-- `SyncManager.trigger()` just calls `self.sync()` synchronously in
the caller (sync.py lines 192-198). -/
def trigger (cat : Catalog) (fuel : Nat) (rv : RepoView) (env : PushEnv)
    (db : DB) : DB :=
  sync cat fuel rv env db

/-- `SyncManager.is_queued()` returns the constant False. -/
def is_queued : Bool := false

/-- `SyncManager.is_running()` returns the constant False. -/
def is_running : Bool := false

end SyncManager

/-- Number of SyncLog(PUSH) rows. -/
def pushLogCount (db : DB) : Nat :=
  (db.syncLogs.filter (fun l => l.action == .push)).length

/-! ### Concrete instances used by witnesses and counterexamples -/

/-- An empty catalog. -/
def catEmpty : Catalog :=
  { byFilename := [], resources := [], activeLanguages := [],
    submissionReady := [], childResources := [], sourcePo := [], langPo := [] }

/-- An empty datastore at clock 50. -/
def dbEmpty : DB :=
  { segments := [], translations := [], syncLogs := [], syncLogResources := [],
    submissions := [], nextLogId := 0, clock := 50 }

/-- A datastore whose most recent SyncLog entry records commit c1. -/
def dbC1 : DB :=
  { dbEmpty with
    segments := [⟨1, "Hello"⟩],
    syncLogs := [⟨0, .pull, "c1", 5⟩],
    nextLogId := 1 }

/-- A repository still at head c1 but showing a nonempty diff list (it
must not be consulted when the watermark already equals the head). -/
def rvC1 : RepoView :=
  ⟨"c1", [⟨"fr/about.po", .good ⟨[], []⟩, .good ⟨[], [⟨"Hello", "Bonjour"⟩]⟩⟩]⟩

/-- A datastore holding a French translation "Bonjour" for segment
"Hello", stamped at time 7, with the clock now at 50. -/
def dbC3 : DB :=
  { dbEmpty with
    segments := [⟨1, "Hello"⟩],
    translations := [⟨1, 2, "Bonjour", 7⟩] }

/-- A catalog where resource 1 has a translatable submission for
language 2 whose materialization raises `ParentNotTranslatedError`. -/
def catC5 : Catalog :=
  { catEmpty with
    resources := [⟨1, "about", 7⟩],
    activeLanguages := [2],
    submissionReady := [((1, 2), .parentNotTranslated)] }

/-- A catalog mapping one PO filename to (resource 1, language 2). -/
def catC6 : Catalog :=
  { catEmpty with byFilename := [("fr/about.po", (1, 2))] }

/-- A datastore knowing only the segment "Known". -/
def dbC6 : DB :=
  { dbEmpty with segments := [⟨1, "Known"⟩] }

/-- A diff whose changed file adds one entry for an unknown segment
followed by one entry for the known segment. -/
def rvC6 : RepoView :=
  ⟨"c2", [⟨"fr/about.po", .good ⟨[], []⟩,
          .good ⟨[], [⟨"Missing", "X"⟩, ⟨"Known", "Y"⟩]⟩⟩]⟩

/-- A changed file that resolves and ingests cleanly. -/
def cfC4good : ChangedFile :=
  ⟨"fr/about.po", .good ⟨[], []⟩, .good ⟨[], [⟨"Hello", "Bonjour"⟩]⟩⟩

/-- A changed file whose path maps to no resource. -/
def cfC4bad : ChangedFile := ⟨"unknown.po", .good ⟨[], []⟩, .good ⟨[], []⟩⟩

/-- A catalog that resolves only the good file's path. -/
def catC4 : Catalog := { catEmpty with byFilename := [("fr/about.po", (1, 2))] }

/-- A datastore knowing segment "Hello", with no logs or translations. -/
def dbC4 : DB := { dbEmpty with segments := [⟨1, "Hello"⟩] }

/-- A pull diff whose first file ingests cleanly and whose second file
fails to resolve. -/
def rvC4 : RepoView := ⟨"c2", [cfC4good, cfC4bad]⟩

/-- The in-transaction state after the pull log and the first file of
`rvC4` have been processed (never committed, since the second file
aborts the transaction). -/
def dbC4mid : DB :=
  { dbC4 with
    translations := [⟨1, 2, "Bonjour", 50⟩],
    syncLogs := [⟨0, .pull, "c2", 50⟩],
    syncLogResources := [⟨0, 1, some 2⟩],
    nextLogId := 1 }

/-- Generated PO content used in the push merge examples. -/
def poNewC7 : POFile := ⟨[("Project-Id-Version", "1.0")], [⟨"Hello", ""⟩]⟩

/-- A reader whose existing file at the target path is malformed. -/
def readerC7 : RepoFS := ⟨[("templates/about.pot", .malformed)]⟩

/-- A reader whose existing file carries hand-maintained metadata and
an entry absent from the newly generated content. -/
def readerC7b : RepoFS :=
  ⟨[("templates/about.pot",
     .good ⟨[("Last-Translator", "Alice")], [⟨"Old", "Entry"⟩]⟩)]⟩

/-- The merged PO file `update_po` writes for `readerC7b`/`poNewC7`. -/
def poC10 : POFile := { poNewC7 with metadata := [("Last-Translator", "Alice")] }

/-- The writer state after that merged write. -/
def wC10 : Writer := writeFile ⟨[], none⟩ "templates/about.pot" poC10

/-- A catalog with one resource whose source PO has one entry. -/
def catC8 : Catalog :=
  { catEmpty with
    resources := [⟨1, "about", 7⟩],
    sourcePo := [(1, ⟨[], [⟨"Hello", ""⟩]⟩)] }

/-- A datastore with one current, never-pushed submission. -/
def dbC8 : DB := { dbEmpty with submissions := [⟨10, 1, 7, none, none⟩] }

/-- A push environment whose writer reports no content changes. -/
def envC8 : PushEnv := ⟨⟨[]⟩, false, "c9"⟩

/-- The outcome of pushing `dbC8` under `envC8`: a PUSH log with empty
commit id, the submission stamped, no commit, and `repo.push()` run. -/
def outC8 : PushOut :=
  ⟨{ dbC8 with
     syncLogs := [⟨0, .push, "", 50⟩],
     syncLogResources := [⟨0, 1, none⟩],
     submissions := [⟨10, 1, 7, some 50, some 0⟩],
     nextLogId := 1 },
   ⟨[("templates/about.pot", ⟨[], [⟨"Hello", ""⟩]⟩)],
    some ([], [("templates/about.pot", "locales/<locale>/about.po")])⟩,
   false, true, some 0⟩

/-- First repository view of the two-sync scenario: head c1, no
translator changes. -/
def rv1W : RepoView := ⟨"c1", []⟩

/-- Second repository view: head at the commit the first push made. -/
def rv2W : RepoView := ⟨"c2", []⟩

/-- Push environment of the scenario: empty tree, the writer reports
changes, a commit would land at c2. -/
def env1W : PushEnv := ⟨⟨[]⟩, true, "c2"⟩

/-- The datastore after the scenario's first pull: one PULL log row. -/
def db1W : DB :=
  { dbC8 with syncLogs := [⟨0, .pull, "c1", 50⟩], nextLogId := 1 }

/-- The outcome of the scenario's first push: a committed PUSH log at
c2 and the submission stamped. -/
def out1W : PushOut :=
  ⟨{ dbC8 with
     syncLogs := [⟨1, .push, "c2", 50⟩, ⟨0, .pull, "c1", 50⟩],
     syncLogResources := [⟨1, 1, none⟩],
     submissions := [⟨10, 1, 7, some 50, some 1⟩],
     nextLogId := 2 },
   ⟨[("templates/about.pot", ⟨[], [⟨"Hello", ""⟩]⟩)],
    some ([], [("templates/about.pot", "locales/<locale>/about.po")])⟩,
   true, true, some 1⟩

/-! ### Shared lemmas -/

/-- One-step equation for the pull file loop. -/
theorem processFiles_cons (cat : Catalog) (fuel logId : Nat)
    (cf : ChangedFile) (cfs : List ChangedFile) (db : DB) :
    processFiles cat fuel logId (cf :: cfs) db =
      match processFile cat fuel logId cf db with
      | .error err => .error err
      | .ok db1 => processFiles cat fuel logId cfs db1 := rfl

/-- Processing an appended file list runs the first part first; when it
succeeds, processing continues on its resulting state. -/
theorem processFiles_append (cat : Catalog) (fuel logId : Nat)
    (xs ys : List ChangedFile) (db db1 : DB)
    (h : processFiles cat fuel logId xs db = .ok db1) :
    processFiles cat fuel logId (xs ++ ys) db =
      processFiles cat fuel logId ys db1 := by
  induction xs generalizing db with
  | nil =>
    simp [processFiles] at h
    subst h
    rfl
  | cons cf cfs ih =>
    rw [processFiles_cons] at h
    rw [List.cons_append, processFiles_cons]
    cases hcf : processFile cat fuel logId cf db with
    | error e =>
      rw [hcf] at h
      exact absurd h (by simp)
    | ok dbm =>
      rw [hcf] at h
      exact ih dbm h

/-- The early-return branch of `_pull`: when the watermark equals the
repository head, the call returns right after creating the
SyncLog(PULL) row, so that row is the only state change. -/
theorem pull_watermark_noop (cat : Catalog) (fuel : Nat) (rv : RepoView)
    (db : DB) (h : lastCommitId db = some rv.head) :
    pullResult cat fuel rv db =
      .ok { db with
        syncLogs := ⟨db.nextLogId, .pull, rv.head, db.clock⟩ :: db.syncLogs,
        nextLogId := db.nextLogId + 1 } := by
  simp [pullResult, createSyncLog, h]

/-- A successful `processEntry` touches only the translations table. -/
theorem processEntry_ok_fields (db : DB) (lang : Nat) (e : POEntry)
    (db' : DB) (h : processEntry db lang e = .ok db') :
    db'.syncLogs = db.syncLogs ∧ db'.syncLogResources = db.syncLogResources ∧
    db'.submissions = db.submissions ∧ db'.nextLogId = db.nextLogId ∧
    db'.clock = db.clock ∧ db'.segments = db.segments := by
  simp only [processEntry] at h
  cases hs : segmentGet db e.msgid with
  | doesNotExist => simp [hs] at h
  | multiple => simp [hs] at h
  | found seg =>
    simp only [hs] at h
    cases ht : findTranslation db seg.id lang with
    | none =>
      simp only [ht] at h
      cases h
      exact ⟨rfl, rfl, rfl, rfl, rfl, rfl⟩
    | some t =>
      simp only [ht] at h
      by_cases he : t.text = e.msgstr
      · rw [if_pos he] at h
        cases h
        exact ⟨rfl, rfl, rfl, rfl, rfl, rfl⟩
      · rw [if_neg he] at h
        cases h
        exact ⟨rfl, rfl, rfl, rfl, rfl, rfl⟩

/-- A successful entry loop touches only the translations table. -/
theorem processEntries_ok_fields (lang : Nat) (es : List POEntry)
    (db db' : DB) (h : processEntries db lang es = .ok db') :
    db'.syncLogs = db.syncLogs ∧ db'.syncLogResources = db.syncLogResources ∧
    db'.submissions = db.submissions ∧ db'.nextLogId = db.nextLogId ∧
    db'.clock = db.clock ∧ db'.segments = db.segments := by
  induction es generalizing db with
  | nil =>
    simp [processEntries] at h
    subst h
    exact ⟨rfl, rfl, rfl, rfl, rfl, rfl⟩
  | cons e es ih =>
    simp only [processEntries] at h
    cases he : processEntry db lang e with
    | error err => simp [he] at h
    | ok db1 =>
      simp only [he] at h
      obtain ⟨a1, b1, c1, d1, e1, f1⟩ := processEntry_ok_fields db lang e db1 he
      obtain ⟨a2, b2, c2, d2, e2, f2⟩ := ih db1 h
      exact ⟨a2.trans a1, b2.trans b1, c2.trans c1, d2.trans d1,
        e2.trans e1, f2.trans f1⟩

/-- A successful child-loop pass returns the datastore unchanged,
provided each step does. -/
theorem updateChildResources_ok_id (step : Nat → DB → Except PyErr DB)
    (hstep : ∀ k db db', step k db = .ok db' → db' = db) :
    ∀ (kids : List Nat) (db db' : DB),
      updateChildResources step kids db = .ok db' → db' = db := by
  intro kids
  induction kids with
  | nil =>
    intro db db' h
    simp [updateChildResources] at h
    exact h.symm
  | cons k ks ih =>
    intro db db' h
    simp only [updateChildResources] at h
    cases hk : step k db with
    | error err => simp [hk] at h
    | ok db1 =>
      simp only [hk] at h
      rw [hstep k db db1 hk] at h
      exact ih db db' h

/-- A successful propagation returns the datastore unchanged:
materialization happens in the external page store, not in the
engine's tables. -/
theorem tryUpdate_ok_id (cat : Catalog) :
    ∀ (fuel rid lang : Nat) (db db' : DB),
      tryUpdateResourceTranslation cat fuel rid lang db = .ok db' →
      db' = db := by
  intro fuel
  induction fuel with
  | zero =>
    intro rid lang db db' h
    simp [tryUpdateResourceTranslation] at h
  | succ f ih =>
    intro rid lang db db' h
    simp only [tryUpdateResourceTranslation] at h
    cases ho : submissionOutcome cat rid lang with
    | none =>
      simp [ho] at h
      exact h.symm
    | some m =>
      cases m with
      | parentNotTranslated => simp [ho] at h
      | materialized pageId created =>
        simp only [ho] at h
        cases created with
        | false =>
          simp at h
          exact h.symm
        | true =>
          rw [if_pos rfl] at h
          exact updateChildResources_ok_id _
            (fun k db0 db0' hk => ih k lang db0 db0' hk) _ db db' h

/-- A successful per-file ingestion touches only the translations and
SyncLogResource tables. -/
theorem processFile_ok_fields (cat : Catalog) (fuel logId : Nat)
    (cf : ChangedFile) (db db' : DB)
    (h : processFile cat fuel logId cf db = .ok db') :
    db'.syncLogs = db.syncLogs ∧ db'.submissions = db.submissions ∧
    db'.nextLogId = db.nextLogId ∧ db'.clock = db.clock ∧
    db'.segments = db.segments := by
  simp only [processFile] at h
  cases hf : getByPoFilename cat cf.filename with
  | none => simp [hf] at h
  | some rl =>
    obtain ⟨rid, lang⟩ := rl
    simp only [hf] at h
    cases ho : cf.oldContent with
    | malformed => simp [ho] at h
    | good oldPo =>
      cases hn : cf.newContent with
      | malformed => simp [ho, hn] at h
      | good newPo =>
        simp only [ho, hn] at h
        cases he : processEntries (addLogResource db logId rid lang)
            lang (changedEntries oldPo newPo) with
        | error err => simp [he] at h
        | ok db2 =>
          simp only [he] at h
          have h2 := tryUpdate_ok_id cat fuel rid lang db2 db' h
          obtain ⟨a, b, c, d, e2, f⟩ :=
            processEntries_ok_fields lang _ _ db2 he
          rw [h2]
          exact ⟨a, c, d, e2, f⟩

/-- A successful file loop touches only the translations and
SyncLogResource tables. -/
theorem processFiles_ok_fields (cat : Catalog) (fuel logId : Nat)
    (cfs : List ChangedFile) (db db' : DB)
    (h : processFiles cat fuel logId cfs db = .ok db') :
    db'.syncLogs = db.syncLogs ∧ db'.submissions = db.submissions ∧
    db'.nextLogId = db.nextLogId ∧ db'.clock = db.clock ∧
    db'.segments = db.segments := by
  induction cfs generalizing db with
  | nil =>
    simp [processFiles] at h
    subst h
    exact ⟨rfl, rfl, rfl, rfl, rfl⟩
  | cons cf cfs ih =>
    rw [processFiles_cons] at h
    cases hcf : processFile cat fuel logId cf db with
    | error err => simp [hcf] at h
    | ok db1 =>
      simp only [hcf] at h
      obtain ⟨a1, b1, c1, d1, e1⟩ := processFile_ok_fields cat fuel logId cf db db1 hcf
      obtain ⟨a2, b2, c2, d2, e2⟩ := ih db1 h
      exact ⟨a2.trans a1, b2.trans b1, c2.trans c1, d2.trans d1, e2.trans e1⟩

/-- Shape of a successful pull: exactly one new SyncLog(PULL) row
stamped with the head sits on top of the old log list, the log id
advanced once, and submissions, clock and segments are untouched. -/
theorem pullResult_ok_shape (cat : Catalog) (fuel : Nat) (rv : RepoView)
    (db db1 : DB) (h : pullResult cat fuel rv db = .ok db1) :
    db1.submissions = db.submissions ∧
    db1.syncLogs = ⟨db.nextLogId, .pull, rv.head, db.clock⟩ :: db.syncLogs ∧
    db1.nextLogId = db.nextLogId + 1 ∧ db1.clock = db.clock ∧
    db1.segments = db.segments := by
  simp only [pullResult] at h
  by_cases hw : lastCommitId db = some rv.head
  · rw [if_pos hw] at h
    cases h
    exact ⟨rfl, rfl, rfl, rfl, rfl⟩
  · rw [if_neg hw] at h
    obtain ⟨a, b, c, d, e⟩ := processFiles_ok_fields cat fuel _ rv.changedFiles _ db1 h
    exact ⟨b, a, c, d, e⟩

/-- Insertion keeps exactly the members. -/
theorem mem_insertByPath (cat : Catalog) (a s : Submission)
    (l : List Submission) :
    s ∈ insertByPath cat a l ↔ s = a ∨ s ∈ l := by
  induction l with
  | nil => simp [insertByPath]
  | cons t ts ih =>
    simp only [insertByPath]
    by_cases hle : resourcePath cat a.resource_id ≤ resourcePath cat t.resource_id
    · rw [if_pos hle]
      simp [List.mem_cons]
    · rw [if_neg hle]
      simp [List.mem_cons, ih]
      tauto

/-- The path ordering keeps exactly the members. -/
theorem mem_orderByPath (cat : Catalog) (s : Submission)
    (l : List Submission) :
    s ∈ orderByPath cat l ↔ s ∈ l := by
  induction l with
  | nil => simp [orderByPath]
  | cons t ts ih => simp [orderByPath, mem_insertByPath, ih]

/-- A current submission's id is always in the processed-ids list. -/
theorem mem_pushedIds_of_current (cat : Catalog) (db : DB)
    (s : Submission) (hs : s ∈ db.submissions)
    (hc : isCurrent cat s = true) :
    (pushedIds cat db).contains s.id = true := by
  have : s ∈ orderByPath cat (currentSubmissions cat db) := by
    rw [mem_orderByPath]
    exact List.mem_filter.2 ⟨hs, hc⟩
  simp [pushedIds]
  exact ⟨s, this, rfl⟩

/-- Full case analysis of a successful push: either the selection of
never-pushed current submissions is empty and nothing happens (no log,
no commit, no remote push, datastore untouched), or it is nonempty and
the push stamps the selected submissions, prepends a SyncLog(PUSH)
whose commit id records the new head exactly when the writer had
changes, runs `repo.push()`, and touches no translation. -/
theorem pushResult_ok_cases (cat : Catalog) (env : PushEnv) (db : DB)
    (out : PushOut) (h : pushResult cat env db = .ok out) :
    (pushSelection cat db = [] ∧ out.db = db ∧ out.committed = false ∧
      out.pushedToRemote = false ∧ out.logId = none) ∨
    (pushSelection cat db ≠ [] ∧ out.pushedToRemote = true ∧
      out.committed = env.hasChanges ∧
      out.db.submissions = db.submissions.map (fun s =>
        if selCond (pushedIds cat db) s then
          { s with pushed_at := some db.clock, push_log := some db.nextLogId }
        else s) ∧
      out.db.syncLogs =
        (if env.hasChanges then
          (⟨db.nextLogId, .push, env.newHead, db.clock⟩ : SyncLog) ::
            db.syncLogs.map (fun l =>
              if l.id == db.nextLogId then { l with commit_id := env.newHead }
              else l)
         else (⟨db.nextLogId, .push, "", db.clock⟩ : SyncLog) :: db.syncLogs) ∧
      out.db.translations = db.translations ∧
      out.db.nextLogId = db.nextLogId + 1 ∧
      out.db.clock = db.clock) := by
  simp only [pushResult] at h
  cases hrun : runUpdates env.reader cat
      (orderByPath cat (currentSubmissions cat db)) ⟨[], none⟩ with
  | error e =>
    simp only [hrun] at h
    exact absurd h (by simp)
  | ok w0 =>
    simp only [hrun] at h
    by_cases hsel : (pushSelection cat db).isEmpty = true
    · rw [if_pos hsel] at h
      cases h
      exact .inl ⟨List.isEmpty_iff.1 hsel, rfl, rfl, rfl, rfl⟩
    · rw [if_neg hsel] at h
      have hne : pushSelection cat db ≠ [] := by
        intro hnil
        exact hsel (by rw [hnil]; rfl)
      cases henv : env.hasChanges with
      | true =>
        rw [henv, if_pos rfl] at h
        cases h
        refine .inr ⟨hne, rfl, rfl, rfl, ?_, rfl, rfl, rfl⟩
        rw [if_pos rfl]
        simp [setLogCommit, markPushed, createSyncLog]
      | false =>
        rw [henv, if_neg Bool.false_ne_true] at h
        cases h
        refine .inr ⟨hne, rfl, rfl, rfl, ?_, rfl, rfl, rfl⟩
        rw [if_neg Bool.false_ne_true]
        rfl

/-- After any successful push, every current submission of the
resulting datastore records a push log. -/
theorem all_current_pushed_after_push (cat : Catalog) (env : PushEnv)
    (db : DB) (out : PushOut) (h : pushResult cat env db = .ok out) :
    ∀ s ∈ out.db.submissions, isCurrent cat s = true → s.push_log ≠ none := by
  rcases pushResult_ok_cases cat env db out h with
    ⟨hsel, hdb, -, -, -⟩ | ⟨-, -, -, hsubs, -, -, -, -⟩
  · intro s hs hc
    rw [hdb] at hs
    have hnc := List.filter_eq_nil_iff.1 hsel s hs
    have hid : s.id ∈ pushedIds cat db := by
      simpa using mem_pushedIds_of_current cat db s hs hc
    simp [selCond, hid] at hnc
    exact hnc
  · intro s hs hc
    rw [hsubs] at hs
    obtain ⟨s0, hs0, rfl⟩ := List.mem_map.1 hs
    by_cases hcond : selCond (pushedIds cat db) s0 = true
    · rw [if_pos hcond]
      simp
    · rw [if_neg hcond] at hc ⊢
      have hid : s0.id ∈ pushedIds cat db := by
        simpa using mem_pushedIds_of_current cat db s0 hs0 hc
      simp [selCond, hid] at hcond
      exact hcond

/-- If every current submission already records a push log, the next
push selects nothing. -/
theorem pushSelection_nil_of_pushed (cat : Catalog) (db : DB)
    (hids : (db.submissions.map (fun s => s.id)).Nodup)
    (hp : ∀ s ∈ db.submissions, isCurrent cat s = true → s.push_log ≠ none) :
    pushSelection cat db = [] := by
  unfold pushSelection
  apply List.filter_eq_nil_iff.2
  intro s hs hcond
  simp only [selCond, Bool.and_eq_true] at hcond
  obtain ⟨hcont, hnone⟩ := hcond
  obtain ⟨s', hmem', hid⟩ := by simpa [pushedIds] using hcont
  rw [mem_orderByPath] at hmem'
  obtain ⟨hmem'', hcur'⟩ := List.mem_filter.1 hmem'
  have heq : s' = s := List.inj_on_of_nodup_map hids hmem'' hs hid
  rw [heq] at hcur'
  have := hp s hs hcur'
  rw [Option.isNone_iff_eq_none] at hnone
  exact this hnone

/-- Stamping a commit id on a fresh log id leaves older logs alone. -/
theorem map_setCommit_id_of_fresh (logs : List SyncLog) (nid : Nat)
    (c : String) (hf : ∀ l ∈ logs, l.id < nid) :
    logs.map (fun l =>
      if l.id == nid then { l with commit_id := c } else l) = logs := by
  induction logs with
  | nil => rfl
  | cons l ls ih =>
    rw [List.map_cons, ih (fun x hx => hf x (List.mem_cons_of_mem l hx))]
    rw [if_neg (by simp; exact Nat.ne_of_lt (hf l (List.mem_cons_self l ls)))]

/-- The watermark of a log list headed by a nonempty-commit row is that
row's commit id. -/
theorem lastCommitId_cons_of_ne (l : SyncLog) (rest : List SyncLog)
    (db : DB) (hlogs : db.syncLogs = l :: rest) (hne : l.commit_id ≠ "") :
    lastCommitId db = some l.commit_id := by
  simp [lastCommitId, hlogs, List.filter_cons, hne]

/-- A head row with empty commit id is skipped by the watermark. -/
theorem lastCommitId_cons_of_empty (l : SyncLog) (rest : List SyncLog)
    (db db2 : DB) (hlogs : db.syncLogs = l :: rest) (he : l.commit_id = "")
    (hlogs2 : db2.syncLogs = rest) :
    lastCommitId db = lastCommitId db2 := by
  simp [lastCommitId, hlogs, hlogs2, List.filter_cons, he]

/-- Claim C1: if the most recent SyncLog entry with a non-empty commit
id records commit C and the repository head is still C, a subsequent
pull creates exactly one new SyncLog(PULL) row stamped with C and makes
no other state change: no files are processed, no SyncLogResource rows
appear, and translations, submissions and segments are untouched (the
resulting state is the old one with only the new log row and the
advanced log id). -/
theorem pull_repeat_same_head_is_noop (cat : Catalog) (fuel : Nat)
    (rv : RepoView) (db : DB) (h : lastCommitId db = some rv.head) :
    pullResult cat fuel rv db =
      .ok { db with
        syncLogs := ⟨db.nextLogId, .pull, rv.head, db.clock⟩ :: db.syncLogs,
        nextLogId := db.nextLogId + 1 } :=
  pull_watermark_noop cat fuel rv db h

/-- Witness for C1 at a concrete state: the last log records c1, the
head is still c1, and the pull adds only the new log row even though
the diff list is nonempty. -/
theorem pull_repeat_same_head_is_noop_witness :
    lastCommitId dbC1 = some rvC1.head ∧
    pullResult catEmpty 5 rvC1 dbC1 =
      .ok { dbC1 with
        syncLogs := ⟨dbC1.nextLogId, .pull, rvC1.head, dbC1.clock⟩ :: dbC1.syncLogs,
        nextLogId := dbC1.nextLogId + 1 } :=
  ⟨by decide, pull_repeat_same_head_is_noop catEmpty 5 rvC1 dbC1 (by decide)⟩

/-- Claim C3: when the pull processes an entry whose segment and
(segment, language) translation already exist, an incoming text equal
to the stored text leaves the datastore (in particular the row's
`updated_at`) entirely unchanged, while a differing text rewrites the
row with the new text stamped at the current clock. -/
theorem translation_update_skips_equal_text (db : DB) (lang : Nat)
    (e : POEntry) (seg : Segment) (t : Translation)
    (hs : segmentGet db e.msgid = .found seg)
    (ht : findTranslation db seg.id lang = some t) :
    (t.text = e.msgstr → processEntry db lang e = .ok db) ∧
    (t.text ≠ e.msgstr →
      processEntry db lang e = .ok (updateTranslation db seg.id lang e.msgstr)) := by
  refine ⟨fun h => ?_, fun h => ?_⟩ <;> simp [processEntry, hs, ht, h]

/-- Witness for C3 at a concrete state: re-delivering "Bonjour" leaves
the row stamped at 7 untouched; delivering "Salut" rewrites it and
stamps it with the current clock 50. -/
theorem translation_update_skips_equal_text_witness :
    processEntry dbC3 2 ⟨"Hello", "Bonjour"⟩ = .ok dbC3 ∧
    (processEntry dbC3 2 ⟨"Hello", "Salut"⟩ =
      .ok (updateTranslation dbC3 1 2 "Salut") ∧
     (updateTranslation dbC3 1 2 "Salut").translations = [⟨1, 2, "Salut", 50⟩]) :=
  ⟨(translation_update_skips_equal_text dbC3 2 ⟨"Hello", "Bonjour"⟩ ⟨1, "Hello"⟩
      ⟨1, 2, "Bonjour", 7⟩ (by decide) (by decide)).1 (by decide),
   (translation_update_skips_equal_text dbC3 2 ⟨"Hello", "Salut"⟩ ⟨1, "Hello"⟩
      ⟨1, 2, "Bonjour", 7⟩ (by decide) (by decide)).2 (by decide),
   by decide⟩

/-- Claim C5 (code bug): propagation on a resource whose
materialization raises `ParentNotTranslatedError` does not return
normally: after the handler logs, `if created:` reads the
never-assigned local `created`, so the call raises
`UnboundLocalError` to its caller instead of catching and stopping. -/
theorem propagation_parent_error_raises_unbound_local :
    tryUpdateResourceTranslation catC5 5 1 2 dbEmpty = .error .unboundLocal := rfl

/-- Claim C6 (code bug): a changed entry whose source text matches no
Segment does not get skipped with a warning: the handler clause
`except Segment.objects.DoesNotExist` itself raises `AttributeError`,
the remaining entries of the file (here the recognized "Known" entry)
are never processed, and the pull aborts with nothing committed. -/
theorem unknown_segment_raises_attribute_error :
    pullResult catC6 5 rvC6 dbC6 = .error .attributeError ∧
    pullCommitted catC6 5 rvC6 dbC6 = dbC6 :=
  ⟨rfl, rfl⟩

/-- Counterexample to claim C4 as stated: in a pull whose first file
ingests cleanly (creating a translation) and whose second file fails to
resolve, the committed state is the pre-pull state — the first file's
translation and the pull's SyncLog entry do NOT remain committed (both
lists are empty afterwards, as they were before). -/
theorem pull_partial_commit_counterexample :
    pullResult catC4 5 rvC4 dbC4 = .error .unrecognizedFile ∧
    pullCommitted catC4 5 rvC4 dbC4 = dbC4 ∧
    (pullCommitted catC4 5 rvC4 dbC4).syncLogs = [] ∧
    (pullCommitted catC4 5 rvC4 dbC4).translations = [] :=
  ⟨rfl, rfl, rfl, rfl⟩

/-- Claim C4 amended: a failure while processing one file leaves that
file's updates entirely unapplied, but it also propagates out of the
per-file savepoint and aborts the entire `@transaction.atomic` pull:
the error escapes `_pull` and the committed state is the pre-pull
state, so the updates of files processed earlier in the same pull and
the pull's SyncLog entry are rolled back as well. -/
theorem pull_one_file_failure_aborts_whole_pull (cat : Catalog)
    (fuel : Nat) (rv : RepoView) (db db1 : DB) (cf : ChangedFile)
    (cfs1 cfs2 : List ChangedFile) (e : PyErr)
    (hw : ¬ lastCommitId db = some rv.head)
    (hfiles : rv.changedFiles = cfs1 ++ cf :: cfs2)
    (hpre : processFiles cat fuel db.nextLogId cfs1
      (createSyncLog db .pull rv.head).2 = .ok db1)
    (hbad : processFile cat fuel db.nextLogId cf db1 = .error e) :
    pullResult cat fuel rv db = .error e ∧
    pullCommitted cat fuel rv db = db := by
  have hres : pullResult cat fuel rv db = .error e := by
    simp only [pullResult]
    rw [if_neg hw, hfiles]
    show processFiles cat fuel db.nextLogId (cfs1 ++ cf :: cfs2)
      (createSyncLog db .pull rv.head).2 = .error e
    rw [processFiles_append cat fuel db.nextLogId cfs1 (cf :: cfs2) _ db1 hpre,
      processFiles_cons, hbad]
  exact ⟨hres, by unfold pullCommitted; rw [hres]⟩

/-- Witness for C4's amended claim at the concrete two-file pull: the
good file succeeded in-transaction, the bad file errors, and the
committed state is the initial one. -/
theorem pull_one_file_failure_aborts_whole_pull_witness :
    pullResult catC4 5 rvC4 dbC4 = .error PyErr.unrecognizedFile ∧
    pullCommitted catC4 5 rvC4 dbC4 = dbC4 :=
  pull_one_file_failure_aborts_whole_pull catC4 5 rvC4 dbC4 dbC4mid cfC4bad
    [cfC4good] [] .unrecognizedFile (by decide) (by decide) (by decide)
    (by decide)

/-- Counterexample to claim C7 as stated: when the existing file at the
target path cannot be parsed, `update_po` does not fall back to writing
the fresh content — the codec's parse error escapes (only `KeyError`
is caught), so it is false that no exception escapes in all three
cases. -/
theorem update_po_parse_failure_escapes :
    update_po readerC7 ⟨[], none⟩ "templates/about.pot" poNewC7 =
      .error .parseError := rfl

/-- Claim C7 amended: if no file exists at the path (the reader raises
`KeyError`), the newly generated content is written unmodified; if a
file exists and parses, the written content is the generated content
with the existing file's metadata substituted in; if a file exists but
cannot be parsed, the parse error propagates out of `update_po`
(nothing is written for that path in that call). -/
theorem update_po_merge_cases (reader : RepoFS) (w : Writer)
    (filename : String) (newPo : POFile) :
    (readFile reader filename = none →
      update_po reader w filename newPo = .ok (writeFile w filename newPo)) ∧
    (∀ current, readFile reader filename = some (.good current) →
      update_po reader w filename newPo =
        .ok (writeFile w filename { newPo with metadata := current.metadata })) ∧
    (readFile reader filename = some .malformed →
      update_po reader w filename newPo = .error .parseError) := by
  refine ⟨fun h => ?_, fun current h => ?_, fun h => ?_⟩ <;>
    simp [update_po, h]

/-- Witness for C7's amended claim at the concrete merge from the
specification's scenario: the existing file's `Last-Translator: Alice`
header is carried onto the generated content. -/
theorem update_po_merge_cases_witness :
    update_po readerC7b ⟨[], none⟩ "templates/about.pot" poNewC7 =
      .ok (writeFile ⟨[], none⟩ "templates/about.pot"
        { poNewC7 with metadata := [("Last-Translator", "Alice")] }) :=
  (update_po_merge_cases readerC7b ⟨[], none⟩ "templates/about.pot"
    poNewC7).2.1 ⟨[("Last-Translator", "Alice")], [⟨"Old", "Entry"⟩]⟩
    (by decide)

/-- Claim C10: whatever `update_po` writes takes all its entries from
the newly generated content; when it merged with an existing file, only
that file's metadata is preserved, and any entry present only in the
existing file is discarded from the written file. -/
theorem update_po_discards_unknown_entries (reader : RepoFS)
    (w w' : Writer) (filename : String) (newPo po' : POFile)
    (h : update_po reader w filename newPo = .ok w')
    (hl : (w'.files.find? (fun p => p.1 == filename)).map (·.2) = some po') :
    po'.entries = newPo.entries ∧
    (∀ current, readFile reader filename = some (.good current) →
      po'.metadata = current.metadata ∧
      ∀ e ∈ current.entries, e ∉ newPo.entries → e ∉ po'.entries) := by
  cases hr : readFile reader filename with
  | none =>
    simp [update_po, hr] at h
    subst h
    simp [writeFile, List.find?_cons_of_pos] at hl
    subst hl
    exact ⟨rfl, fun current hcur => absurd hcur (by simp)⟩
  | some content =>
    cases content with
    | malformed => simp [update_po, hr] at h
    | good current0 =>
      simp [update_po, hr] at h
      subst h
      simp [writeFile, List.find?_cons_of_pos] at hl
      subst hl
      refine ⟨rfl, fun current hcur => ?_⟩
      have hc : current0 = current := by simpa using hcur
      subst hc
      exact ⟨rfl, fun e _ hnot => hnot⟩

/-- Witness for C10 at the concrete merge: the written file's entries
are exactly the generated ones and the existing file's extra entry is
gone. -/
theorem update_po_discards_unknown_entries_witness :
    poC10.entries = poNewC7.entries ∧
    (⟨"Old", "Entry"⟩ : POEntry) ∉ poC10.entries := by
  have h := update_po_discards_unknown_entries readerC7b ⟨[], none⟩ wC10
    "templates/about.pot" poNewC7 poC10 (by decide) (by decide)
  exact ⟨h.1,
    (h.2 ⟨[("Last-Translator", "Alice")], [⟨"Old", "Entry"⟩]⟩ (by decide)).2
      ⟨"Old", "Entry"⟩ (by decide) (by decide)⟩

/-- Counterexample to claim C8 as stated: a push cycle with zero
current submissions creates no PUSH log and no commit, but it also
never invokes `repo.push()` (the call sits inside the
`pushed_submissions.exists()` branch), contradicting "every push cycle
ends by invoking repository.push()". -/
theorem push_zero_submissions_skips_remote_push :
    pushResult catEmpty envC8 dbEmpty =
      .ok ⟨dbEmpty, ⟨[], some ([], [])⟩, false, false, none⟩ := rfl

/-- Claim C8 amended: a push cycle invokes `repo.push()` exactly when
it selected at least one never-pushed current submission; in that case
the push happens regardless of `writer.has_changes()` (a commit only
happens when it reports changes), while a cycle with an empty selection
leaves the datastore untouched, creates no log, commits nothing, and
does not invoke `repo.push()`. -/
theorem push_remote_iff_unpushed_selection (cat : Catalog)
    (env : PushEnv) (db : DB) (out : PushOut)
    (h : pushResult cat env db = .ok out) :
    (out.pushedToRemote = !(pushSelection cat db).isEmpty) ∧
    ((pushSelection cat db).isEmpty = true →
      out.db = db ∧ out.committed = false ∧ out.logId = none) ∧
    (out.committed = true → env.hasChanges = true) := by
  simp only [pushResult] at h
  cases hrun : runUpdates env.reader cat
      (orderByPath cat (currentSubmissions cat db)) ⟨[], none⟩ with
  | error e =>
    simp only [hrun] at h
    exact absurd h (by simp)
  | ok w0 =>
    simp only [hrun] at h
    by_cases hsel : (pushSelection cat db).isEmpty = true
    · rw [if_pos hsel] at h
      cases h
      exact ⟨by rw [hsel]; rfl, fun _ => ⟨rfl, rfl, rfl⟩,
        fun hc => absurd hc (by simp)⟩
    · rw [if_neg hsel] at h
      rw [Bool.not_eq_true] at hsel
      cases henv : env.hasChanges with
      | true =>
        rw [henv, if_pos rfl] at h
        cases h
        exact ⟨by rw [hsel]; rfl, fun hc => absurd hc (by simp [hsel]),
          fun _ => rfl⟩
      | false =>
        rw [henv, if_neg Bool.false_ne_true] at h
        cases h
        exact ⟨by rw [hsel]; rfl, fun hc => absurd hc (by simp [hsel]),
          fun hc => absurd hc (by simp)⟩

/-- Witness for C8's amended claim at a concrete cycle with one
never-pushed current submission and `has_changes` false: no commit
happens, yet `repo.push()` runs. -/
theorem push_remote_iff_unpushed_selection_witness :
    pushResult catC8 envC8 dbC8 = .ok outC8 ∧
    outC8.pushedToRemote = !(pushSelection catC8 dbC8).isEmpty ∧
    (pushSelection catC8 dbC8).isEmpty = false ∧
    envC8.hasChanges = false ∧
    outC8.committed = false ∧
    outC8.pushedToRemote = true :=
  ⟨by decide,
   (push_remote_iff_unpushed_selection catC8 envC8 dbC8 outC8 (by decide)).1,
   by decide, by decide, by decide, by decide⟩

/-- Claim C2: calling `sync()` twice in succession with no external
mutation between the calls is idempotent on the second call.  Given a
first sync whose pull and push both succeeded (from a datastore with
distinct submission ids and fresh log ids, a nonempty head commit and a
nonempty would-be commit id), and a second repository view whose head
is unchanged (the first sync's commit if one happened, the old head
otherwise), the second `sync()` — for ANY push environment — changes
the datastore only by the unconditional SyncLog(PULL) row: no
Translation row is touched again, no submission is re-stamped, and no
new SyncLog(PUSH) entry is created, because the push finalization
selects only submissions with `push_log` unset and treats an empty
selection as a no-op. -/
theorem sync_second_call_is_noop (cat : Catalog) (fuel1 fuel2 : Nat)
    (rv1 rv2 : RepoView) (env1 env2 : PushEnv) (db db1 : DB)
    (out1 : PushOut)
    (hids : (db.submissions.map (fun s => s.id)).Nodup)
    (hfresh : ∀ l ∈ db.syncLogs, l.id < db.nextLogId)
    (h1 : pullResult cat fuel1 rv1 db = .ok db1)
    (h2 : pushResult cat env1 db1 = .ok out1)
    (hh : rv1.head ≠ "")
    (hnh : env1.newHead ≠ "")
    (hr2 : rv2.head = if out1.committed then env1.newHead else rv1.head) :
    syncCommitted cat fuel2 rv2 env2 out1.db =
      { out1.db with
        syncLogs := ⟨out1.db.nextLogId, .pull, rv2.head, out1.db.clock⟩ ::
          out1.db.syncLogs,
        nextLogId := out1.db.nextLogId + 1 } ∧
    (syncCommitted cat fuel2 rv2 env2 out1.db).translations =
      out1.db.translations ∧
    (syncCommitted cat fuel2 rv2 env2 out1.db).submissions =
      out1.db.submissions ∧
    pushLogCount (syncCommitted cat fuel2 rv2 env2 out1.db) =
      pushLogCount out1.db := by
  obtain ⟨psub, plogs, pnid, pclk, pseg⟩ :=
    pullResult_ok_shape cat fuel1 rv1 db db1 h1
  have hids1 : (db1.submissions.map (fun s => s.id)).Nodup := by
    rw [psub]
    exact hids
  have hfresh1 : ∀ l ∈ db1.syncLogs, l.id < db1.nextLogId := by
    rw [plogs, pnid]
    intro l hl
    rcases List.mem_cons.1 hl with rfl | hl
    · exact Nat.lt_succ_self _
    · exact Nat.lt_succ_of_lt (hfresh l hl)
  have hp := all_current_pushed_after_push cat env1 db1 out1 h2
  have hkey : lastCommitId out1.db = some rv2.head ∧
      (out1.db.submissions.map (fun s => s.id)).Nodup := by
    rcases pushResult_ok_cases cat env1 db1 out1 h2 with
      ⟨hsel, hdb, hcomm, -, -⟩ | ⟨hne, -, hcomm, hsubs, hlogs, -, -, -⟩
    · rw [hcomm] at hr2
      simp at hr2
      constructor
      · rw [hdb, hr2]
        exact lastCommitId_cons_of_ne _ _ db1 plogs hh
      · rw [hdb]
        exact hids1
    · have hidpres : out1.db.submissions.map (fun s => s.id) =
          db1.submissions.map (fun s => s.id) := by
        rw [hsubs, List.map_map]
        exact List.map_congr_left (fun s _ => by
          by_cases hcond : selCond (pushedIds cat db1) s = true
          · simp [Function.comp, if_pos hcond]
          · simp [Function.comp, if_neg hcond])
      constructor
      · cases hch : env1.hasChanges with
        | true =>
          rw [hch, if_pos rfl,
            map_setCommit_id_of_fresh db1.syncLogs db1.nextLogId
              env1.newHead hfresh1] at hlogs
          rw [hch] at hcomm
          rw [hcomm] at hr2
          simp at hr2
          rw [hr2]
          exact lastCommitId_cons_of_ne _ _ out1.db hlogs hnh
        | false =>
          rw [hch, if_neg Bool.false_ne_true] at hlogs
          rw [hch] at hcomm
          rw [hcomm] at hr2
          simp at hr2
          rw [hr2,
            lastCommitId_cons_of_empty _ db1.syncLogs out1.db db1 hlogs rfl rfl]
          exact lastCommitId_cons_of_ne _ _ db1 plogs hh
      · rw [hidpres]
        exact hids1
  obtain ⟨hwm, hids2⟩ := hkey
  have hpull2 := pull_watermark_noop cat fuel2 rv2 out1.db hwm
  have hselA : pushSelection cat
      { out1.db with
        syncLogs := ⟨out1.db.nextLogId, .pull, rv2.head, out1.db.clock⟩ ::
          out1.db.syncLogs,
        nextLogId := out1.db.nextLogId + 1 } = [] :=
    pushSelection_nil_of_pushed cat _ hids2 hp
  have hmain : syncCommitted cat fuel2 rv2 env2 out1.db =
      { out1.db with
        syncLogs := ⟨out1.db.nextLogId, .pull, rv2.head, out1.db.clock⟩ ::
          out1.db.syncLogs,
        nextLogId := out1.db.nextLogId + 1 } := by
    simp only [syncCommitted, hpull2]
    cases hres : pushResult cat env2
        { out1.db with
          syncLogs := ⟨out1.db.nextLogId, .pull, rv2.head, out1.db.clock⟩ ::
            out1.db.syncLogs,
          nextLogId := out1.db.nextLogId + 1 } with
    | error e => rfl
    | ok out2 =>
      rcases pushResult_ok_cases cat env2 _ out2 hres with
        ⟨-, hdb2, -, -, -⟩ | ⟨hne2, -⟩
      · exact hdb2
      · exact absurd hselA hne2
  exact ⟨hmain, by rw [hmain], by rw [hmain], by rw [hmain]; rfl⟩

/-- Witness for C2 at the concrete two-sync scenario: first sync pulls
at head c1 (no translator changes), pushes the one current submission
and commits at c2; the second sync, run against head c2, only adds a
PULL log row — same translations, same submissions, same number of
PUSH logs. -/
theorem sync_second_call_is_noop_witness :
    syncCommitted catC8 5 rv2W env1W out1W.db =
      { out1W.db with
        syncLogs := ⟨out1W.db.nextLogId, .pull, rv2W.head, out1W.db.clock⟩ ::
          out1W.db.syncLogs,
        nextLogId := out1W.db.nextLogId + 1 } ∧
    (syncCommitted catC8 5 rv2W env1W out1W.db).translations =
      out1W.db.translations ∧
    (syncCommitted catC8 5 rv2W env1W out1W.db).submissions =
      out1W.db.submissions ∧
    pushLogCount (syncCommitted catC8 5 rv2W env1W out1W.db) =
      pushLogCount out1W.db :=
  sync_second_call_is_noop catC8 5 5 rv1W rv2W env1W env1W dbC8 db1W out1W
    (by decide) (by decide) (by decide) (by decide) (by decide) (by decide)
    (by decide)

/-- Claim C9: the default SyncManager's status queries are constants —
`is_queued()` and `is_running()` always return False — and `trigger()`
runs `sync()` synchronously in the caller, so these queries offer no
double-trigger protection. -/
theorem sync_manager_default_status (cat : Catalog) (fuel : Nat)
    (rv : RepoView) (env : PushEnv) (db : DB) :
    SyncManager.is_queued = false ∧ SyncManager.is_running = false ∧
    SyncManager.trigger cat fuel rv env db =
      SyncManager.sync cat fuel rv env db :=
  ⟨rfl, rfl, rfl⟩

end Pontoon
